import Mathlib

/-!
Verification of the rag-builder ingestion pipeline and chat agent.

Shallow embedding of:
- `src/rag_builder/lambda/load-document/loader.py` (class `LanceDbLoader`):
  the document ingestion pipeline (`load_document`, `_doc_title`,
  `_create_fts_index_if_not_exists`, `_add_document`, chunk id assignment);
- `src/rag_builder/lambda/load-document/function.py` (`handler`):
  the SQS entry point;
- `src/rag_builder/fargate/chainlit-app/app/agent.py`:
  conversation-window trimming (`delete_messages`, the restore path of
  `setup_agent`), `retrieve_context` and `is_vector_store_empty`, and the
  Reciprocal Rank Fusion reranking used by the hybrid query.

External effects (HTTP PATCH/POST status updates, vector-store writes, index
builds) are modelled as an explicit list of emitted `Effect`s; fallible steps
(network fetch, embedding, store writes, index builds) are modelled as
`Except`-valued fields of an environment record.  Python exceptions are the
type `PyErr`; a Python function that can raise returns `Except PyErr` or pairs
its result with an `Option PyErr` for an escaping exception.
-/

/-- A Python exception.  `exc m` stands for an arbitrary exception whose
`repr` rendering is `m` (HTTP errors, embedding errors, store errors, ...). -/
inductive PyErr where
  | indexError
  | keyError
  | notImplementedError
  | stopIteration
  | exc (m : String)
deriving DecidableEq, Repr

/-- The string rendering `repr(e)` of a Python exception, as used for the
`error_details` field in `LanceDbLoader._mark_failed`. -/
def pyRepr : PyErr → String
  | .indexError => "IndexError(\x27list index out of range\x27)"
  | .keyError => "KeyError(\x27title\x27)"
  | .notImplementedError => "NotImplementedError()"
  | .stopIteration => "StopIteration()"
  | .exc m => m

/-- A LangChain `Document` chunk: text plus a string-keyed metadata dict
(the dict is modelled as an association list). -/
structure Document where
  page_content : String
  metadata : List (String × String)
deriving DecidableEq, Repr

/-- Python `d[k]` lookup on a dict, as an `Option`. -/
def dictGet (d : List (String × String)) (k : String) : Option String :=
  (d.find? (fun p => p.1 == k)).map Prod.snd

/-- Python `d.update({k: v})`: replaces the binding of `k` (association-list
order is irrelevant to every lookup the code performs). -/
def dictSet (d : List (String × String)) (k v : String) : List (String × String) :=
  d.filter (fun p => p.1 != k) ++ [(k, v)]

/-- Embeds `LanceDbLoader._doc_title` (loader.py lines 58-65): reads
`self._documents[0].metadata["title"]` inside `try ... except KeyError`.
On an empty chunk list, `self._documents[0]` raises `IndexError`, which the
`except KeyError` clause does NOT catch; a missing `"title"` key raises
`KeyError`, which is caught and replaced by `"Unknown"`. -/
def _doc_title (documents : List Document) : Except PyErr String :=
  match documents with
  | [] => .error .indexError
  | d :: _ =>
    match dictGet d.metadata "title" with
    | some t => .ok t
    | none => .ok "Unknown"

/-- Embeds `LanceDbLoader._add_extra_metadata` together with
`_extra_metadata`: every chunk gets `{"url": self.url}` merged into its
metadata. -/
def _add_extra_metadata (documents : List Document) (url : String) : List Document :=
  documents.map (fun d => { d with metadata := dictSet d.metadata "url" url })

/-- Decimal digits of `n`, least significant first, with explicit fuel
(structurally recursive so that proofs can evaluate it).  `decDigitsAux n n`
is the full digit list of `n` for `n > 0`. -/
def decDigitsAux : Nat → Nat → List Nat
  | 0, _ => []
  | _ + 1, 0 => []
  | fuel + 1, n + 1 => (n + 1) % 10 :: decDigitsAux fuel ((n + 1) / 10)

/-- The characters of the decimal rendering of `i`, most significant first
(what Python `str(i)` / `"%d" % i` prints). -/
def decChars (i : Nat) : List Char :=
  if i = 0 then ['0'] else ((decDigitsAux i i).map Nat.digitChar).reverse

/-- The characters of Python `f"{i:04d}"`: the decimal rendering of `i`,
left-padded with `'0'` to a minimum width of 4. -/
def pad4chars (i : Nat) : List Char :=
  List.replicate (4 - (decChars i).length) '0' ++ decChars i

/-- Python `f"{i:04d}"` as a string. -/
def pad4 (i : Nat) : String :=
  ⟨pad4chars i⟩

/-- Embeds the id expression `f"{self.load_id}-{i:04d}"` of
`LanceDbLoader.load_document` (loader.py line 124). -/
def chunkId (load_id : String) (i : Nat) : String :=
  load_id ++ "-" ++ pad4 i

/-- Embeds the id list `[f"{self.load_id}-{i:04d}" for i in range(len(self._documents))]`
passed to `add_documents` (loader.py line 124). -/
def chunkIds (load_id : String) (n : Nat) : List String :=
  (List.range n).map (chunkId load_id)

/-- An observable side effect of the ingestion pipeline: a PATCH to the
status record, an insertion into the vector store, an index build, or the
POST registering a Document. -/
inductive Effect where
  | markInProgress
  | markFailed (error_details : String)
  | markCompleted
  | insertChunks (ids : List String)
  | createFtsIndex (index_name : String)
  | waitForIndex (index_name : String)
  | postDocument (document_id title url : String)
deriving DecidableEq, Repr

/-- `LanceDbLoader._DEFAULT_TEXT_COLUMN`. -/
def _DEFAULT_TEXT_COLUMN : String := "text"

/-- The state of the LanceDB table relevant to full-text-index creation:
whether `index_stats(f"{text_column}_idx")` reports an existing index, and
whether an attempted build (`create_fts_index` / `wait_for_index`) would
raise. -/
structure FtsTable where
  indexStats : Option Unit
  buildFailure : Option PyErr
deriving DecidableEq, Repr

/-- Embeds `LanceDbLoader._create_fts_index_if_not_exists` (loader.py lines
81-86): if `index_stats(f"{text_column}_idx")` is `None`, build the index and
block on `wait_for_index`; otherwise do nothing.  Returns the updated table
state and the emitted build effects, or the exception raised by the build. -/
def _create_fts_index_if_not_exists (t : FtsTable) : Except PyErr (FtsTable × List Effect) :=
  match t.indexStats with
  | some _ => .ok (t, [])
  | none =>
    match t.buildFailure with
    | some e => .error e
    | none =>
      .ok ({ t with indexStats := some () },
        [.createFtsIndex (_DEFAULT_TEXT_COLUMN ++ "_idx"),
         .waitForIndex (_DEFAULT_TEXT_COLUMN ++ "_idx")])

/-- The environment of one `load_document` run: the load id and url of the
attempt, the outcome of `_load_and_split_documents` (fetch + split), the
outcome of the `add_documents` call (embed + store write), and the table
state seen by the index step. -/
structure LoadEnv where
  load_id : String
  url : String
  splitResult : Except PyErr (List Document)
  insertResult : Except PyErr Unit
  table : FtsTable
deriving Repr

/-- Embeds `LanceDbLoader._add_document` (loader.py lines 106-114): POSTs
`{document_id, title, url}`, where the title comes from `_doc_title`.  The
`IndexError` that `_doc_title` raises on an empty chunk list escapes (it is
raised while building the request payload, before any POST is sent). -/
def _add_document (load_id url : String) (documents : List Document) :
    List Effect × Option PyErr :=
  match _doc_title documents with
  | .error e => ([], some e)
  | .ok title => ([.postDocument load_id title url], none)

/-- Embeds `LanceDbLoader.load_document` (loader.py lines 116-133):
mark in_progress; then `try`: fetch/split, add url metadata, insert chunks
under deterministic ids, ensure the full-text index; `except Exception`:
mark failed with `repr(e)` and return; `else`: mark completed, register the
Document.  Returns the emitted effects and the exception escaping the call,
if any (only `_add_document`, outside the `try`, can raise one). -/
def load_document (env : LoadEnv) : List Effect × Option PyErr :=
  match env.splitResult with
  | .error e => ([.markInProgress, .markFailed (pyRepr e)], none)
  | .ok docs =>
    let documents := _add_extra_metadata docs env.url
    let ids := chunkIds env.load_id documents.length
    match env.insertResult with
    | .error e => ([.markInProgress, .markFailed (pyRepr e)], none)
    | .ok _ =>
      match _create_fts_index_if_not_exists env.table with
      | .error e => ([.markInProgress, .insertChunks ids, .markFailed (pyRepr e)], none)
      | .ok r =>
        let ad := _add_document env.load_id env.url documents
        ([.markInProgress, .insertChunks ids] ++ r.2 ++ [.markCompleted] ++ ad.1, ad.2)

/-- The first exception raised inside the `try` block of `load_document`
(fetch/split, embed/insert, or index creation), if any. -/
def stepFailure (env : LoadEnv) : Option PyErr :=
  match env.splitResult with
  | .error e => some e
  | .ok _ =>
    match env.insertResult with
    | .error e => some e
    | .ok _ =>
      match _create_fts_index_if_not_exists env.table with
      | .error e => some e
      | .ok _ => none

/-- The `error_details` payloads of the `status=failed` updates among a list
of effects. -/
def failedUpdates (effects : List Effect) : List String :=
  effects.filterMap (fun e =>
    match e with
    | .markFailed d => some d
    | _ => none)

/-- The `spec` field of a queue message (function.py, `DocumentLoadSpec`). -/
structure DocumentLoadSpec where
  source : String
  url : String
deriving DecidableEq, Repr

/-- A queue message body (function.py, `DocumentLoadMessage`). -/
structure DocumentLoadMessage where
  load_id : String
  spec : DocumentLoadSpec
deriving DecidableEq, Repr

/-- One SQS record, already parsed (the JSON body as its message). -/
structure SqsRecord where
  message_id : String
  body : DocumentLoadMessage
deriving DecidableEq, Repr

/-- The external world an ingestion run would interact with (outcomes of the
fetch/split, insert and index steps). -/
structure IngestWorld where
  splitResult : Except PyErr (List Document)
  insertResult : Except PyErr Unit
  table : FtsTable
deriving Repr

/-- Embeds `handler` (function.py lines 23-41): take the FIRST record of the
event via `next(...)` (raising `StopIteration` on an empty event), then
dispatch on `spec["source"]`: `"pdf"` runs the loader, anything else raises
`NotImplementedError` before any status update is issued. -/
def handler (records : List SqsRecord) (w : IngestWorld) : List Effect × Option PyErr :=
  match records with
  | [] => ([], some .stopIteration)
  | record :: _ =>
    let m := record.body
    if m.spec.source = "pdf" then
      load_document
        { load_id := m.load_id, url := m.spec.url, splitResult := w.splitResult,
          insertResult := w.insertResult, table := w.table }
    else
      ([], some .notImplementedError)

/-- A conversation message; `type` is the LangChain message type tag
(`"human"` for `HumanMessage`, `"ai"` for `AIMessage`, `"tool"`, ...). -/
structure Msg where
  type : String
deriving DecidableEq, Repr

/-- `MAX_MEMORY_WINDOW` (agent.py line 21). -/
def MAX_MEMORY_WINDOW : Nat := 10

/-- Embeds `delete_messages` (agent.py lines 72-99), expressed as the
RETAINED history (the source returns `RemoveMessage` markers for the deleted
prefix): a history within the window is returned unchanged; otherwise the
oldest `len - MAX_MEMORY_WINDOW` messages are dropped, and the scan then
keeps dropping messages while `message.type != "human"`, stopping at the
first human message. -/
def delete_messages (messages : List Msg) : List Msg :=
  if messages.length ≤ MAX_MEMORY_WINDOW then
    messages
  else
    (messages.drop (messages.length - MAX_MEMORY_WINDOW)).dropWhile
      (fun m => m.type != "human")

/-- Embeds the restore trimming of `setup_agent` (agent.py lines 116-126):
`messages = conversation["messages"][-MAX_MEMORY_WINDOW:]`, then
`while not isinstance(messages[0], HumanMessage): messages.pop(0)`.
Returns `none` when the loop exhausts the list and `messages[0]` raises
`IndexError` (no human message in the window), otherwise the trimmed list. -/
def setup_agent_restore (conversation : List Msg) : Option (List Msg) :=
  let messages := conversation.drop (conversation.length - MAX_MEMORY_WINDOW)
  let trimmed := messages.dropWhile (fun m => m.type != "human")
  if trimmed.isEmpty then none else some trimmed

/-- Whether a history begins with a user-originated (`"human"`) message. -/
def startsWithHuman : List Msg → Bool
  | [] => false
  | m :: _ => m.type == "human"

/-- The bounded-window invariant claimed by the spec: at most
`MAX_MEMORY_WINDOW` messages are retained, and the retained history is empty
or begins with a user-originated message. -/
def boundedWindowInv (l : List Msg) : Prop :=
  l.length ≤ MAX_MEMORY_WINDOW ∧ (l = [] ∨ startsWithHuman l = true)

instance (l : List Msg) : Decidable (boundedWindowInv l) :=
  inferInstanceAs (Decidable (l.length ≤ MAX_MEMORY_WINDOW ∧ (l = [] ∨ startsWithHuman l = true)))

/-- A retrieved hit as selected by `.select(["metadata", "text"])`. -/
structure Hit where
  metadata : String
  text : String
deriving DecidableEq, Repr

/-- The environment of one `retrieve_context` call: whether
`open_table("vectorstore")` succeeds (it raises `ValueError` when the table
does not exist), and the hits the hybrid LanceDB query returns for a given
query string and limit. -/
structure RetrieveEnv where
  tableExists : Bool
  hybridHits : String → Nat → List Hit

/-- Embeds `is_vector_store_empty` (agent.py lines 32-38): `open_table`
raising `ValueError` means the store is empty. -/
def is_vector_store_empty (env : RetrieveEnv) : Bool :=
  !env.tableExists

/-- The per-hit formatting `f"Source: {doc['metadata']}\nContent: {doc['text']}"`
of `retrieve_context`. -/
def formatHit (doc : Hit) : String :=
  "Source: " ++ doc.metadata ++ "\nContent: " ++ doc.text

/-- Embeds `retrieve_context` (agent.py lines 41-69): if the store is empty,
return the sentinel string; otherwise run the hybrid query with
`.limit(10)` and join the formatted hits with `"\n--\n"`. -/
def retrieve_context (env : RetrieveEnv) (query : String) : String :=
  if is_vector_store_empty env then
    "The vector store is empty."
  else
    String.intercalate "\n--\n" ((env.hybridHits query 10).map formatHit)

/-- Modelled from the spec: the rank constant of Reciprocal Rank Fusion.
The fusion itself is performed by `lancedb.rerankers.RRFReranker` (a library
the repository only calls, at agent.py line 62); the spec fixes its rank
constant at 60. -/
def RRF_RANK_CONSTANT : Nat := 60

/-- Modelled from the spec: the score one ranked result list contributes to
item `a` under Reciprocal Rank Fusion, `1 / (rank_constant + rank)` where
`rank` is the 1-based rank of `a` in the list, and `0` when `a` does not
appear.  The implementation (`RRFReranker`) is library code absent from
`src/`. -/
def rrfLegScore {α : Type} [DecidableEq α] (ranking : List α) (a : α) : ℚ :=
  match ranking.indexOf? a with
  | some i => 1 / ((RRF_RANK_CONSTANT : ℚ) + (i : ℚ) + 1)
  | none => 0

/-- Modelled from the spec: the fused score of item `a`, summed over the
vector-search and keyword-search result lists in which it appears. -/
def rrfScore {α : Type} [DecidableEq α] (vec kw : List α) (a : α) : ℚ :=
  rrfLegScore vec a + rrfLegScore kw a

/-- Removes duplicates keeping the FIRST occurrence of each item, in order
(`seen` accumulates the items already emitted). -/
def dedupFirstAux {α : Type} [DecidableEq α] (seen : List α) : List α → List α
  | [] => []
  | a :: t => if a ∈ seen then dedupFirstAux seen t else a :: dedupFirstAux (a :: seen) t

/-- The distinct candidate items of two concatenated rankings, in order of
first appearance. -/
def dedupFirst {α : Type} [DecidableEq α] (l : List α) : List α :=
  dedupFirstAux [] l

/-- Modelled from the spec: the descending-fused-score ordering used to sort
the fused candidates (`rrfGE vec kw a b` holds when `a` scores at least as
high as `b`). -/
def rrfGE {α : Type} [DecidableEq α] (vec kw : List α) (a b : α) : Prop :=
  rrfScore vec kw b ≤ rrfScore vec kw a

instance rrfGE_decidable {α : Type} [DecidableEq α] (vec kw : List α) :
    DecidableRel (rrfGE vec kw) :=
  fun a b => inferInstanceAs (Decidable (rrfScore vec kw b ≤ rrfScore vec kw a))

/-- Modelled from the spec: hybrid retrieval with Reciprocal Rank Fusion.
Given the vector-search ranking `vec` and the keyword-search ranking `kw`,
the distinct candidates are sorted descending by fused score with a stable
(hence deterministic) tie-break by first appearance, and the top `k` are
returned. -/
def hybrid_query {α : Type} [DecidableEq α] (vec kw : List α) (k : Nat) : List α :=
  ((dedupFirst (vec ++ kw)).insertionSort (rrfGE vec kw)).take k

/-- A concrete ingestion environment whose fetch/split step raises. -/
def envSplitFail : LoadEnv :=
  { load_id := "L1", url := "http://example.com/a.pdf",
    splitResult := .error (.exc "boom"), insertResult := .ok (),
    table := { indexStats := none, buildFailure := none } }

/-- A concrete chunk produced by a successful split. -/
def docA : Document :=
  { page_content := "hello", metadata := [("title", "T")] }

/-- A concrete ingestion environment where every step succeeds and the split
produces one chunk. -/
def envOk : LoadEnv :=
  { load_id := "L2", url := "http://example.com/b.pdf",
    splitResult := .ok [docA], insertResult := .ok (),
    table := { indexStats := none, buildFailure := none } }

/-- A concrete ingestion environment where every step succeeds but the split
produces an EMPTY chunk list (a PDF with no extractable text). -/
def emptyChunksEnv : LoadEnv :=
  { load_id := "L0", url := "http://example.com/empty.pdf",
    splitResult := .ok [], insertResult := .ok (),
    table := { indexStats := some (), buildFailure := none } }

/-- A concrete world for handler runs. -/
def worldOk : IngestWorld :=
  { splitResult := .ok [docA], insertResult := .ok (),
    table := { indexStats := none, buildFailure := none } }

/-- A concrete record whose load spec names an unsupported source. -/
def recordHtml : SqsRecord :=
  { message_id := "m1",
    body := { load_id := "L3", spec := { source := "html", url := "http://example.com/c" } } }

/-- The numeric value of a decimal digit character (specification-side
decoder used to prove chunk ids distinct). -/
def digitVal (c : Char) : Nat :=
  c.toNat - '0'.toNat

/-- Decodes a most-significant-first decimal character string (leading
zeros allowed); left inverse of the `pad4chars` rendering. -/
def parseDec (cs : List Char) : Nat :=
  cs.foldl (fun acc c => 10 * acc + digitVal c) 0

/-! ## Helper lemmas -/

/-- A `dropWhile` result is empty or starts with an element refuting the
predicate. -/
theorem dropWhile_eq_nil_or_head {α : Type} (p : α → Bool) (l : List α) :
    l.dropWhile p = [] ∨ ∃ a t, l.dropWhile p = a :: t ∧ p a = false := by
  induction l with
  | nil => exact Or.inl rfl
  | cons a t ih =>
    by_cases h : p a
    · simpa [List.dropWhile_cons, h] using ih
    · exact Or.inr ⟨a, t, by simp [List.dropWhile_cons, h], by simp [h]⟩

/-- The retained history of `delete_messages` on an over-long input is the
`dropWhile` tail of the dropped window. -/
theorem delete_messages_of_long {messages : List Msg}
    (h : MAX_MEMORY_WINDOW < messages.length) :
    delete_messages messages =
      (messages.drop (messages.length - MAX_MEMORY_WINDOW)).dropWhile
        (fun m => m.type != "human") := by
  unfold delete_messages
  rw [if_neg (not_le.mpr h)]

/-! ## C1: bounded-window invariant -/

/-- C1 (counterexample): the bounded-window invariant as the spec states it
fails on the code: a one-message history consisting of an assistant message
is within the window, so `delete_messages` retains it unchanged, and the
retained history begins with an assistant-originated message. -/
theorem bounded_window_counterexample :
    ¬ boundedWindowInv (delete_messages [Msg.mk "ai"]) := by
  decide

/-- C1 (amended): histories within the window are retained unchanged by
`delete_messages` (so they may begin with an assistant message); histories
longer than the window satisfy the bounded-window invariant after trimming
(at most `MAX_MEMORY_WINDOW` retained, empty or starting with a human
message); and when the restore trimming of `setup_agent` returns (it raises
`IndexError` when the window holds no human message), the restored history
has at most `MAX_MEMORY_WINDOW` messages and starts with a human message. -/
theorem bounded_window_amended :
    (∀ messages : List Msg, messages.length ≤ MAX_MEMORY_WINDOW →
      delete_messages messages = messages) ∧
    (∀ messages : List Msg, MAX_MEMORY_WINDOW < messages.length →
      boundedWindowInv (delete_messages messages)) ∧
    (∀ conversation trimmed, setup_agent_restore conversation = some trimmed →
      trimmed.length ≤ MAX_MEMORY_WINDOW ∧ startsWithHuman trimmed = true) := by
  refine ⟨fun messages h => ?_, fun messages h => ?_, fun conversation trimmed h => ?_⟩
  · unfold delete_messages
    rw [if_pos h]
  · rw [delete_messages_of_long h]
    constructor
    · calc ((messages.drop (messages.length - MAX_MEMORY_WINDOW)).dropWhile
            (fun m => m.type != "human")).length
          ≤ (messages.drop (messages.length - MAX_MEMORY_WINDOW)).length :=
            (List.dropWhile_sublist _).length_le
        _ ≤ MAX_MEMORY_WINDOW := by
            rw [List.length_drop]
            omega
    · rcases dropWhile_eq_nil_or_head (fun m => m.type != "human")
        (messages.drop (messages.length - MAX_MEMORY_WINDOW)) with hnil | ⟨a, t, heq, hpa⟩
      · exact Or.inl hnil
      · refine Or.inr ?_
        rw [heq]
        simpa [startsWithHuman] using hpa
  · simp only [setup_agent_restore] at h
    rcases dropWhile_eq_nil_or_head (fun m => m.type != "human")
        (conversation.drop (conversation.length - MAX_MEMORY_WINDOW)) with hnil | ⟨a, t, heq, hpa⟩
    · rw [hnil] at h
      simp at h
    · rw [heq] at h
      simp at h
      constructor
      · rw [← h]
        calc (a :: t).length
            = ((conversation.drop (conversation.length - MAX_MEMORY_WINDOW)).dropWhile
                (fun m => m.type != "human")).length := by rw [heq]
          _ ≤ (conversation.drop (conversation.length - MAX_MEMORY_WINDOW)).length :=
              (List.dropWhile_sublist _).length_le
          _ ≤ MAX_MEMORY_WINDOW := by
              rw [List.length_drop]
              omega
      · rw [← h]
        simpa [startsWithHuman] using hpa

/-- C1 (witness): the amended theorem applied at concrete histories. -/
theorem bounded_window_amended_witness :
    delete_messages [Msg.mk "ai"] = [Msg.mk "ai"] ∧
    boundedWindowInv (delete_messages (List.replicate 11 (Msg.mk "ai"))) ∧
    ([Msg.mk "human"].length ≤ MAX_MEMORY_WINDOW ∧
      startsWithHuman [Msg.mk "human"] = true) :=
  ⟨bounded_window_amended.1 [Msg.mk "ai"] (by decide),
   bounded_window_amended.2.1 (List.replicate 11 (Msg.mk "ai")) (by decide),
   bounded_window_amended.2.2 [Msg.mk "human"] [Msg.mk "human"] (by decide)⟩

/-- Every entry of `decDigitsAux` is a decimal digit. -/
theorem decDigitsAux_lt_ten : ∀ fuel n, ∀ d ∈ decDigitsAux fuel n, d < 10 := by
  intro fuel
  induction fuel with
  | zero => intro n d hd; simp [decDigitsAux] at hd
  | succ fuel ih =>
    intro n d hd
    cases n with
    | zero => simp [decDigitsAux] at hd
    | succ n =>
      simp only [decDigitsAux, List.mem_cons] at hd
      rcases hd with rfl | hd
      · exact Nat.mod_lt _ (by norm_num)
      · exact ih _ d hd

/-- `decDigitsAux fuel n` really lists the decimal digits of `n` (least
significant first) whenever the fuel suffices. -/
theorem ofDigits_decDigitsAux : ∀ fuel n, n ≤ fuel →
    Nat.ofDigits 10 (decDigitsAux fuel n) = n := by
  intro fuel
  induction fuel with
  | zero =>
    intro n hn
    interval_cases n
    simp [decDigitsAux, Nat.ofDigits]
  | succ fuel ih =>
    intro n hn
    cases n with
    | zero => simp [decDigitsAux, Nat.ofDigits]
    | succ n =>
      have hdiv : (n + 1) / 10 ≤ fuel := by
        have := Nat.div_lt_self (Nat.succ_pos n) (by norm_num : (1 : ℕ) < 10)
        omega
      simp only [decDigitsAux, Nat.ofDigits_cons, ih _ hdiv]
      omega

/-- Decoding a decimal digit character recovers the digit. -/
theorem digitVal_digitChar (d : Nat) (h : d < 10) : digitVal (Nat.digitChar d) = d := by
  interval_cases d <;> rfl

/-- Folding the decimal decoder over a printed digit list computes
`ofDigits` (with the accumulator shifted past all printed digits). -/
theorem foldl_parse_digits (l : List Nat) (h : ∀ d ∈ l, d < 10) (a : Nat) :
    List.foldl (fun acc c => 10 * acc + digitVal c) a ((l.map Nat.digitChar).reverse) =
      a * 10 ^ l.length + Nat.ofDigits 10 l := by
  induction l generalizing a with
  | nil => simp
  | cons d t ih =>
    have hd : d < 10 := h d (List.mem_cons_self d t)
    have ht : ∀ x ∈ t, x < 10 := fun x hx => h x (List.mem_cons_of_mem d hx)
    rw [List.map_cons, List.reverse_cons, List.foldl_append, ih ht a]
    simp only [List.foldl_cons, List.foldl_nil, digitVal_digitChar d hd,
      Nat.ofDigits_cons, List.length_cons, Nat.cast_id]
    ring

/-- Decoding the decimal rendering of `i` gives `i` back. -/
theorem parseDec_decChars (i : Nat) : parseDec (decChars i) = i := by
  by_cases h : i = 0
  · subst h; rfl
  · unfold parseDec decChars
    rw [if_neg h, foldl_parse_digits (decDigitsAux i i) (decDigitsAux_lt_ten i i) 0,
      ofDigits_decDigitsAux i i le_rfl]
    ring

/-- Leading zero characters do not change the decoded value. -/
theorem parseDec_replicate_zeros (k : Nat) (cs : List Char) :
    parseDec (List.replicate k '0' ++ cs) = parseDec cs := by
  induction k with
  | zero => simp
  | succ k ih =>
    rw [List.replicate_succ, List.cons_append]
    unfold parseDec at ih ⊢
    rw [List.foldl_cons]
    have h0 : 10 * 0 + digitVal '0' = 0 := rfl
    rw [h0]
    exact ih

/-- Decoding the zero-padded rendering of `i` gives `i` back. -/
theorem parseDec_pad4chars (i : Nat) : parseDec (pad4chars i) = i := by
  unfold pad4chars
  rw [parseDec_replicate_zeros]
  exact parseDec_decChars i

/-- The zero-padded rendering `f"{i:04d}"` is injective. -/
theorem pad4chars_injective : Function.Injective pad4chars := by
  intro i j h
  have := congrArg parseDec h
  rwa [parseDec_pad4chars, parseDec_pad4chars] at this

/-- The character data of `pad4 i`. -/
theorem data_pad4 (i : Nat) : (pad4 i).data = pad4chars i := rfl

/-- For a fixed attempt id, distinct chunk indices give distinct chunk ids. -/
theorem chunkId_injective (A : String) : Function.Injective (chunkId A) := by
  intro i j h
  have h2 := congrArg String.data h
  rw [chunkId, chunkId, String.data_append, String.data_append, String.data_append,
    String.data_append, data_pad4, data_pad4, List.append_assoc, List.append_assoc] at h2
  exact pad4chars_injective (List.append_cancel_left (List.append_cancel_left h2))

/-- `chunkIds` has one id per chunk. -/
theorem chunkIds_length (A : String) (n : Nat) : (chunkIds A n).length = n := by
  simp [chunkIds]

/-- The `i`-th chunk id is the attempt id, a dash, and `i` zero-padded. -/
theorem chunkIds_getElem (A : String) (n i : Nat) (h : i < n) :
    (chunkIds A n)[i]? = some (A ++ "-" ++ pad4 i) := by
  simp [chunkIds, List.getElem?_map, List.getElem?_range h, chunkId]

/-- Chunk ids contain no duplicates. -/
theorem chunkIds_nodup (A : String) (n : Nat) : (chunkIds A n).Nodup :=
  List.Nodup.map (chunkId_injective A) (List.nodup_range n)

/-! ## C2: deterministic chunk ids -/

/-- C2: a successful ingestion (fetch/split and insert both succeed) inserts
its chunks under exactly the ids `load_id-0000, load_id-0001, ...`, one per
chunk in document order, with no gaps (the `i`-th id is the id of index `i`)
and no duplicates. -/
theorem chunk_ids_deterministic (env : LoadEnv) (docs : List Document)
    (hs : env.splitResult = .ok docs) (hi : env.insertResult = .ok ()) :
    Effect.insertChunks (chunkIds env.load_id docs.length) ∈ (load_document env).1 ∧
    (chunkIds env.load_id docs.length).length = docs.length ∧
    (∀ i, i < docs.length →
      (chunkIds env.load_id docs.length)[i]? = some (env.load_id ++ "-" ++ pad4 i)) ∧
    (chunkIds env.load_id docs.length).Nodup ∧
    chunkIds "A" 3 = ["A-0000", "A-0001", "A-0002"] := by
  refine ⟨?_, chunkIds_length _ _, fun i h => chunkIds_getElem _ _ _ h,
    chunkIds_nodup _ _, by decide⟩
  cases hf : _create_fts_index_if_not_exists env.table with
  | error e =>
    simp [load_document, hs, hi, hf, _add_extra_metadata]
  | ok r =>
    simp [load_document, hs, hi, hf, _add_extra_metadata]

/-- C2 (witness): the theorem applied to a concrete successful run with one
chunk. -/
theorem chunk_ids_deterministic_witness :
    (envOk.splitResult = Except.ok [docA] ∧ envOk.insertResult = Except.ok ()) ∧
    (Effect.insertChunks (chunkIds envOk.load_id [docA].length) ∈ (load_document envOk).1 ∧
      (chunkIds envOk.load_id [docA].length).length = [docA].length ∧
      (∀ i, i < [docA].length →
        (chunkIds envOk.load_id [docA].length)[i]? = some (envOk.load_id ++ "-" ++ pad4 i)) ∧
      (chunkIds envOk.load_id [docA].length).Nodup ∧
      chunkIds "A" 3 = ["A-0000", "A-0001", "A-0002"]) :=
  ⟨⟨rfl, rfl⟩, chunk_ids_deterministic envOk [docA] rfl rfl⟩

/-! ## C3: ingestion error containment -/

/-- C3: whenever one of the fetch/split, embed/insert, or index-creation
steps of `load_document` raises, the pipeline catches it, records exactly
one `status=failed` update carrying `repr(e)` as `error_details`, never
reaches the `completed` transition, and returns normally (no exception
escapes `load_document`). -/
theorem ingestion_error_containment (env : LoadEnv) (e : PyErr)
    (h : stepFailure env = some e) :
    (load_document env).2 = none ∧
    failedUpdates (load_document env).1 = [pyRepr e] ∧
    Effect.markCompleted ∉ (load_document env).1 := by
  unfold stepFailure at h
  cases hs : env.splitResult with
  | error e1 =>
    rw [hs] at h
    simp only [Option.some.injEq] at h
    subst h
    simp [load_document, hs, failedUpdates]
  | ok docs =>
    rw [hs] at h
    cases hi : env.insertResult with
    | error e2 =>
      rw [hi] at h
      simp only [Option.some.injEq] at h
      subst h
      simp [load_document, hs, hi, failedUpdates]
    | ok u =>
      rw [hi] at h
      cases hf : _create_fts_index_if_not_exists env.table with
      | error e3 =>
        rw [hf] at h
        simp only [Option.some.injEq] at h
        subst h
        simp [load_document, hs, hi, hf, failedUpdates]
      | ok r =>
        rw [hf] at h
        simp at h

/-- C3 (witness): the theorem applied to a concrete run whose fetch/split
step raises. -/
theorem ingestion_error_containment_witness :
    stepFailure envSplitFail = some (PyErr.exc "boom") ∧
    ((load_document envSplitFail).2 = none ∧
      failedUpdates (load_document envSplitFail).1 = [pyRepr (PyErr.exc "boom")] ∧
      Effect.markCompleted ∉ (load_document envSplitFail).1) :=
  ⟨by decide, ingestion_error_containment envSplitFail (PyErr.exc "boom") (by decide)⟩

/-! ## C7: failed ingestion leaves no partial Document record -/

/-- A successful index step emits either nothing (index already present) or
exactly the build-and-wait pair. -/
theorem fts_ok_effects {t : FtsTable} {r : FtsTable × List Effect}
    (hf : _create_fts_index_if_not_exists t = .ok r) :
    r.2 = [] ∨ r.2 = [Effect.createFtsIndex (_DEFAULT_TEXT_COLUMN ++ "_idx"),
      Effect.waitForIndex (_DEFAULT_TEXT_COLUMN ++ "_idx")] := by
  unfold _create_fts_index_if_not_exists at hf
  cases h1 : t.indexStats with
  | some u =>
    rw [h1] at hf
    simp only [Except.ok.injEq] at hf
    rw [← hf]
    simp
  | none =>
    rw [h1] at hf
    cases h2 : t.buildFailure with
    | some e =>
      rw [h2] at hf
      simp at hf
    | none =>
      rw [h2] at hf
      simp only [Except.ok.injEq] at hf
      rw [← hf]
      simp

/-- C7: if any step inside the `try` block of `load_document` raises, no
Document registry entry is POSTed for the attempt; and whenever a Document
IS posted, the post is immediately preceded by the `completed` status
transition (so `_add_document` runs only on the success path, after the
`completed` update). -/
theorem no_partial_document_record (env : LoadEnv) :
    ((stepFailure env).isSome →
      ∀ i t u, Effect.postDocument i t u ∉ (load_document env).1) ∧
    (∀ i t u, Effect.postDocument i t u ∈ (load_document env).1 →
      ∃ pre, (load_document env).1 = pre ++ [Effect.markCompleted, Effect.postDocument i t u]) := by
  cases hs : env.splitResult with
  | error e1 =>
    constructor
    · intro _ i t u
      simp [load_document, hs]
    · intro i t u hmem
      simp [load_document, hs] at hmem
  | ok docs =>
    cases hi : env.insertResult with
    | error e2 =>
      constructor
      · intro _ i t u
        simp [load_document, hs, hi]
      · intro i t u hmem
        simp [load_document, hs, hi] at hmem
    | ok u0 =>
      cases hf : _create_fts_index_if_not_exists env.table with
      | error e3 =>
        constructor
        · intro _ i t u
          simp [load_document, hs, hi, hf]
        · intro i t u hmem
          simp [load_document, hs, hi, hf] at hmem
      | ok r =>
        have hnone : stepFailure env = none := by
          unfold stepFailure
          rw [hs, hi, hf]
        have hnp : ∀ i t u, Effect.postDocument i t u ∉ r.2 := by
          intro i t u hmem
          rcases fts_ok_effects hf with h | h <;> rw [h] at hmem <;> simp at hmem
        constructor
        · intro hsome
          rw [hnone] at hsome
          simp at hsome
        · intro i t u hmem
          cases ht : _doc_title (_add_extra_metadata docs env.url) with
          | error e4 =>
            simp [load_document, hs, hi, hf, _add_document, ht] at hmem
            exact absurd hmem (hnp i t u)
          | ok title =>
            simp only [load_document, hs, hi, hf, _add_document, ht] at hmem ⊢
            simp [hnp i t u] at hmem
            rcases hmem with ⟨rfl, rfl, rfl⟩
            exact ⟨[Effect.markInProgress,
              Effect.insertChunks (chunkIds env.load_id (_add_extra_metadata docs env.url).length)]
              ++ r.2, by simp⟩

/-- C7 (witness): the theorem applied to a concrete failing run (no post at
all) and a concrete successful run (post only right after `completed`). -/
theorem no_partial_document_record_witness :
    (∀ i t u, Effect.postDocument i t u ∉ (load_document envSplitFail).1) ∧
    (∃ pre, (load_document envOk).1 =
      pre ++ [Effect.markCompleted, Effect.postDocument "L2" "T" "http://example.com/b.pdf"]) :=
  ⟨(no_partial_document_record envSplitFail).1 (by decide),
   (no_partial_document_record envOk).2 "L2" "T" "http://example.com/b.pdf" (by decide)⟩

/-! ## C9: document title fallback (code bug on empty chunk lists) -/

/-- C9 (code bug): on a successful load whose splitter produced an EMPTY
chunk list, the claimed `"Unknown"` fallback does not happen: `_doc_title`
raises `IndexError` (the source catches only `KeyError`), so no Document is
registered and the exception escapes `load_document` after the `completed`
transition.  For nonempty chunk lists the fallback behaves as claimed:
the first chunk metadata title, else `"Unknown"`. -/
theorem doc_title_empty_chunks_bug :
    _doc_title [] = Except.error PyErr.indexError ∧
    load_document emptyChunksEnv =
      ([Effect.markInProgress, Effect.insertChunks [], Effect.markCompleted],
        some PyErr.indexError) ∧
    (∀ d rest, _doc_title (d :: rest) =
      Except.ok ((dictGet d.metadata "title").getD "Unknown")) := by
  refine ⟨rfl, by decide, fun d rest => ?_⟩
  unfold _doc_title
  cases h : dictGet d.metadata "title" <;> simp [h]

/-! ## C6: unsupported source propagates -/

/-- C6: a load spec whose `source` is not `"pdf"` makes the handler raise
`NotImplementedError` without emitting any effect: no status update of any
kind (in particular no `failed` record) is issued for that load id, so the
attempt never moves past its initial `pending` state. -/
theorem unsupported_source_propagates (r : SqsRecord) (rest : List SqsRecord)
    (w : IngestWorld) (h : r.body.spec.source ≠ "pdf") :
    handler (r :: rest) w = ([], some PyErr.notImplementedError) := by
  simp [handler, h]

/-- C6 (witness): the theorem applied to a concrete `"html"` load spec. -/
theorem unsupported_source_propagates_witness :
    recordHtml.body.spec.source ≠ "pdf" ∧
    handler [recordHtml] worldOk = ([], some PyErr.notImplementedError) :=
  ⟨by decide, unsupported_source_propagates recordHtml [] worldOk (by decide)⟩

/-! ## C10: only the first record of an event is processed -/

/-- C10: the handler takes exactly the first record of the SQS event via
`next(...)`; the remaining records have no influence on its behaviour (they
trigger no ingestion and no status update). -/
theorem handler_first_record_only (r : SqsRecord) (rest : List SqsRecord)
    (w : IngestWorld) :
    handler (r :: rest) w = handler [r] w := rfl

/-! ## C8: full-text index creation is idempotent -/

/-- C8: starting from a table without the index (and with a build that does
not raise), the first `_create_fts_index_if_not_exists` call performs
exactly one build (create followed by the blocking wait for
`"{text_column}_idx"`, here `"text_idx"`), and the second call observes the
now-existing index and performs no build, so two calls in a row yield
exactly one index-build invocation. -/
theorem fts_index_idempotent (t : FtsTable) (h1 : t.indexStats = none)
    (h2 : t.buildFailure = none) :
    ∃ t1, _create_fts_index_if_not_exists t =
        .ok (t1, [Effect.createFtsIndex "text_idx", Effect.waitForIndex "text_idx"]) ∧
      _create_fts_index_if_not_exists t1 = .ok (t1, []) := by
  refine ⟨{ t with indexStats := some () }, ?_, ?_⟩
  · unfold _create_fts_index_if_not_exists
    rw [h1, h2]
    rfl
  · unfold _create_fts_index_if_not_exists
    rfl

/-- C8 (witness): the theorem applied to a concrete fresh table. -/
theorem fts_index_idempotent_witness :
    ∃ t1, _create_fts_index_if_not_exists { indexStats := none, buildFailure := none } =
        .ok (t1, [Effect.createFtsIndex "text_idx", Effect.waitForIndex "text_idx"]) ∧
      _create_fts_index_if_not_exists t1 = .ok (t1, []) :=
  fts_index_idempotent { indexStats := none, buildFailure := none } rfl rfl

/-! ## C5: retriever sentinel and formatting -/

/-- C5 (counterexample): the sentinel the code returns when the backing
table does not exist is `"The vector store is empty."`, not the string
`"the knowledge base is empty"` the claim quotes. -/
theorem retriever_sentinel_counterexample :
    retrieve_context { tableExists := false, hybridHits := fun _ _ => [] } "q" ≠
      "the knowledge base is empty" ∧
    retrieve_context { tableExists := false, hybridHits := fun _ _ => [] } "q" =
      "The vector store is empty." :=
  ⟨by decide, rfl⟩

/-- C5 (amended): `retrieve_context` first checks the store; when the
backing table does not exist it returns the fixed sentinel
`"The vector store is empty."` instead of raising; otherwise it runs the
hybrid query with `k = 10` and returns the hits formatted as
`Source: {metadata}\nContent: {text}` joined by `\n--\n`. -/
theorem retriever_sentinel_amended (env : RetrieveEnv) (query : String) :
    (env.tableExists = false →
      retrieve_context env query = "The vector store is empty.") ∧
    (env.tableExists = true →
      retrieve_context env query =
        String.intercalate "\n--\n" ((env.hybridHits query 10).map formatHit)) := by
  constructor <;> intro h <;> simp [retrieve_context, is_vector_store_empty, h]

/-- C5 (witness): the amended theorem applied to a concrete empty store and
a concrete store with one hit. -/
theorem retriever_sentinel_amended_witness :
    retrieve_context { tableExists := false, hybridHits := fun _ _ => [] } "q" =
      "The vector store is empty." ∧
    retrieve_context { tableExists := true, hybridHits := fun _ _ => [Hit.mk "m" "t"] } "q" =
      String.intercalate "\n--\n" ([Hit.mk "m" "t"].map formatHit) :=
  ⟨(retriever_sentinel_amended { tableExists := false, hybridHits := fun _ _ => [] } "q").1 rfl,
   (retriever_sentinel_amended { tableExists := true, hybridHits := fun _ _ => [Hit.mk "m" "t"] } "q").2 rfl⟩

/-! ## C4: Reciprocal Rank Fusion ordering -/

/-- Membership in `dedupFirstAux`: exactly the elements of the input not yet
seen. -/
theorem mem_dedupFirstAux {α : Type} [DecidableEq α] (seen t : List α) (x : α) :
    x ∈ dedupFirstAux seen t ↔ x ∈ t ∧ x ∉ seen := by
  induction t generalizing seen with
  | nil => simp [dedupFirstAux]
  | cons a t ih =>
    by_cases h : a ∈ seen
    · simp only [dedupFirstAux]
      rw [if_pos h, ih]
      constructor
      · rintro ⟨h1, h2⟩
        exact ⟨List.mem_cons_of_mem a h1, h2⟩
      · rintro ⟨h1, h2⟩
        rcases List.mem_cons.mp h1 with rfl | h1
        · exact absurd h h2
        · exact ⟨h1, h2⟩
    · simp only [dedupFirstAux]
      rw [if_neg h]
      constructor
      · intro hx
        rcases List.mem_cons.mp hx with rfl | hx
        · exact ⟨List.mem_cons_self _ _, h⟩
        · rw [ih] at hx
          exact ⟨List.mem_cons_of_mem a hx.1,
            fun hs => hx.2 (List.mem_cons_of_mem a hs)⟩
      · rintro ⟨h1, h2⟩
        rcases List.mem_cons.mp h1 with rfl | h1
        · exact List.mem_cons_self _ _
        · by_cases hxa : x = a
          · subst hxa
            exact List.mem_cons_self _ _
          · refine List.mem_cons_of_mem a ?_
            rw [ih]
            refine ⟨h1, fun hs => ?_⟩
            rcases List.mem_cons.mp hs with h3 | h3
            · exact hxa h3
            · exact h2 h3

/-- `dedupFirstAux` produces no duplicates. -/
theorem nodup_dedupFirstAux {α : Type} [DecidableEq α] (seen t : List α) :
    (dedupFirstAux seen t).Nodup := by
  induction t generalizing seen with
  | nil => simp [dedupFirstAux]
  | cons a t ih =>
    by_cases h : a ∈ seen
    · simp only [dedupFirstAux]
      rw [if_pos h]
      exact ih seen
    · simp only [dedupFirstAux]
      rw [if_neg h, List.nodup_cons]
      refine ⟨fun hmem => ?_, ih (a :: seen)⟩
      rw [mem_dedupFirstAux] at hmem
      exact hmem.2 (List.mem_cons_self a seen)

/-- The candidate list of a fusion contains no duplicates. -/
theorem nodup_dedupFirst {α : Type} [DecidableEq α] (l : List α) :
    (dedupFirst l).Nodup :=
  nodup_dedupFirstAux [] l

/-- C4: hybrid retrieval under Reciprocal Rank Fusion returns, for any
vector-leg and keyword-leg rankings, the top `k` distinct candidates of a
list sorted descending by fused score (the sort is a deterministic, stable
function of the two rankings); and on the spec example, vector ranking
`[x, y, z]` and keyword ranking `[y, x, w]` with rank constant 60, the fused
scores are `x = 1/61 + 1/62`, `y = 1/62 + 1/61`, `z = 1/63`, `w = 1/63`. -/
theorem rrf_hybrid_ordering :
    (∀ (vec kw : List String) (k : Nat),
      ∃ full : List String,
        full.Perm (dedupFirst (vec ++ kw)) ∧
        full.Pairwise (fun a b => rrfScore vec kw b ≤ rrfScore vec kw a) ∧
        hybrid_query vec kw k = full.take k ∧
        (hybrid_query vec kw k).Nodup ∧
        (hybrid_query vec kw k).length ≤ k) ∧
    (rrfScore ["x", "y", "z"] ["y", "x", "w"] "x" = 1/61 + 1/62 ∧
     rrfScore ["x", "y", "z"] ["y", "x", "w"] "y" = 1/62 + 1/61 ∧
     rrfScore ["x", "y", "z"] ["y", "x", "w"] "z" = 1/63 ∧
     rrfScore ["x", "y", "z"] ["y", "x", "w"] "w" = 1/63) := by
  constructor
  · intro vec kw k
    haveI hTrans : IsTrans String (rrfGE vec kw) :=
      ⟨fun _ _ _ hab hbc => le_trans hbc hab⟩
    haveI hTotal : IsTotal String (rrfGE vec kw) :=
      ⟨fun a b => le_total (rrfScore vec kw b) (rrfScore vec kw a)⟩
    refine ⟨(dedupFirst (vec ++ kw)).insertionSort (rrfGE vec kw),
      List.perm_insertionSort _ _,
      List.sorted_insertionSort (rrfGE vec kw) _,
      rfl,
      List.Sublist.nodup (List.take_sublist _ _)
        ((nodup_dedupFirst _).perm (List.perm_insertionSort _ _).symm),
      List.length_take_le _ _⟩
  · have ax : List.indexOf? "x" ["x", "y", "z"] = some 0 := by decide
    have ay : List.indexOf? "y" ["x", "y", "z"] = some 1 := by decide
    have az : List.indexOf? "z" ["x", "y", "z"] = some 2 := by decide
    have aw : List.indexOf? "w" ["x", "y", "z"] = none := by decide
    have bx : List.indexOf? "x" ["y", "x", "w"] = some 1 := by decide
    have by1 : List.indexOf? "y" ["y", "x", "w"] = some 0 := by decide
    have bz : List.indexOf? "z" ["y", "x", "w"] = none := by decide
    have bw : List.indexOf? "w" ["y", "x", "w"] = some 2 := by decide
    refine ⟨?_, ?_, ?_, ?_⟩
    · simp only [rrfScore, rrfLegScore, ax, bx, RRF_RANK_CONSTANT]
      norm_num
    · simp only [rrfScore, rrfLegScore, ay, by1, RRF_RANK_CONSTANT]
      norm_num
    · simp only [rrfScore, rrfLegScore, az, bz, RRF_RANK_CONSTANT]
      norm_num
    · simp only [rrfScore, rrfLegScore, aw, bw, RRF_RANK_CONSTANT]
      norm_num
